/-
Verification of the Certosaurus certificate-management core
(`certificates/cert_utils.py`, `certificates/models.py`,
`certificates/views.py`, `certificates/forms.py`).

The Python code is shallowly embedded: pure helpers become Lean
functions, the Django view handlers become explicit state-passing
functions over a `Sys` record holding the three object tables, and
the nondeterministic inputs (current time, random serial numbers,
fresh RSA keys, random passwords) are threaded explicitly.  PEM
serialization is performed by the `cryptography` library in the
original; it is modelled here as an injective textual encoding of the
certificate record (see `encodeCert`).
-/

import Mathlib

/-! ### Decimal digits: a tiny numeric codec used by the PEM model -/

/-- Decimal digit list of a natural number, most significant first. -/
def decDigits (n : Nat) : List Char :=
  if _h : n < 10 then [Nat.digitChar n]
  else decDigits (n / 10) ++ [Nat.digitChar (n % 10)]
termination_by n
decreasing_by exact Nat.div_lt_self (by omega) (by omega)

/-- Fold a digit list back into a number (accumulator form). -/
def ofDecAux (acc : Nat) : List Char → Nat
  | [] => acc
  | c :: cs => ofDecAux (acc * 10 + (c.toNat - 48)) cs

theorem decDigits_ne_nil (n : Nat) : decDigits n ≠ [] := by
  rw [decDigits]
  split
  · simp
  · simp

theorem digitChar_isDigit (d : Nat) (h : d < 10) : (Nat.digitChar d).isDigit = true := by
  interval_cases d <;> decide

theorem digitChar_toNat (d : Nat) (h : d < 10) : (Nat.digitChar d).toNat - 48 = d := by
  interval_cases d <;> decide

theorem decDigits_all_digits (n : Nat) : ∀ c ∈ decDigits n, c.isDigit = true := by
  induction n using Nat.strong_induction_on with
  | _ n ih =>
    rw [decDigits]
    split
    · intro c hc
      simp only [List.mem_singleton] at hc
      subst hc
      exact digitChar_isDigit n (by omega)
    · intro c hc
      rw [List.mem_append] at hc
      rcases hc with hc | hc
      · exact ih (n / 10) (Nat.div_lt_self (by omega) (by omega)) c hc
      · simp only [List.mem_singleton] at hc
        subst hc
        exact digitChar_isDigit (n % 10) (Nat.mod_lt _ (by omega))

theorem ofDecAux_append (a : Nat) (xs ys : List Char) :
    ofDecAux a (xs ++ ys) = ofDecAux (ofDecAux a xs) ys := by
  induction xs generalizing a with
  | nil => rfl
  | cons c cs ih =>
    rw [List.cons_append]
    show ofDecAux (a * 10 + (c.toNat - 48)) (cs ++ ys)
        = ofDecAux (ofDecAux (a * 10 + (c.toNat - 48)) cs) ys
    exact ih _

theorem ofDecAux_decDigits (n : Nat) :
    ∀ a, ofDecAux a (decDigits n) = a * 10 ^ (decDigits n).length + n := by
  induction n using Nat.strong_induction_on with
  | _ n ih =>
    intro a
    rw [decDigits]
    split
    · show ofDecAux (a * 10 + ((Nat.digitChar n).toNat - 48)) [] = _
      rw [digitChar_toNat n (by omega)]
      show a * 10 + n = a * 10 ^ ([Nat.digitChar n]).length + n
      rw [List.length_singleton, pow_one]
    · rw [ofDecAux_append]
      have hrec := ih (n / 10) (Nat.div_lt_self (by omega) (by omega)) a
      rw [hrec]
      show (a * 10 ^ (decDigits (n / 10)).length + n / 10) * 10
            + ((Nat.digitChar (n % 10)).toNat - 48) = _
      rw [digitChar_toNat (n % 10) (Nat.mod_lt _ (by omega))]
      rw [List.length_append, List.length_singleton, Nat.pow_succ, ← Nat.mul_assoc]
      generalize a * 10 ^ (decDigits (n / 10)).length = m
      omega

theorem ofDec_decDigits (n : Nat) : ofDecAux 0 (decDigits n) = n := by
  simpa using ofDecAux_decDigits n 0

/-! ### Deterministic parsers over `List Char`, with inversion lemmas.

These model the PEM text format used by `serialize_certificate` /
`load_certificate_from_pem` (the `cryptography` library's encoder in
the original source). -/

def parseDigits : List Char → List Char × List Char
  | [] => ([], [])
  | c :: cs =>
    if c.isDigit then
      let p := parseDigits cs
      (c :: p.1, p.2)
    else ([], c :: cs)

theorem parseDigits_append (ds : List Char) (hds : ∀ c ∈ ds, c.isDigit = true)
    (t : List Char) : parseDigits (ds ++ ';' :: t) = (ds, ';' :: t) := by
  induction ds with
  | nil =>
    have hsemi : (';' : Char).isDigit = false := by decide
    simp [parseDigits, hsemi]
  | cons c cs ih =>
    have hc : c.isDigit = true := hds c (List.mem_cons_self c cs)
    simp [parseDigits, hc, ih (fun d hd => hds d (List.mem_cons_of_mem c hd))]

/-- Encoded natural number: decimal digits, `';'`-terminated. -/
def encNat (n : Nat) : List Char := decDigits n ++ [';']

def parseNat (cs : List Char) : Option (Nat × List Char) :=
  match parseDigits cs with
  | ([], _) => none
  | (d :: ds, r) =>
    match r with
    | ';' :: t => some (ofDecAux 0 (d :: ds), t)
    | _ => none

theorem parseNat_enc (n : Nat) (r : List Char) :
    parseNat (encNat n ++ r) = some (n, r) := by
  unfold encNat parseNat
  rw [List.append_assoc, List.singleton_append,
    parseDigits_append (decDigits n) (decDigits_all_digits n) r]
  cases hd : decDigits n with
  | nil => exact absurd hd (decDigits_ne_nil n)
  | cons d ds =>
    simp only [← hd, ofDec_decDigits]

def encBool (b : Bool) : List Char := [if b then 'T' else 'F']

def parseBool : List Char → Option (Bool × List Char)
  | 'T' :: r => some (true, r)
  | 'F' :: r => some (false, r)
  | _ => none

theorem parseBool_enc (b : Bool) (r : List Char) :
    parseBool (encBool b ++ r) = some (b, r) := by
  cases b <;> rfl

/-- Encoded string: length-prefixed character data. -/
def encStr (s : String) : List Char := encNat s.length ++ s.data

def parseStr (cs : List Char) : Option (String × List Char) :=
  match parseNat cs with
  | none => none
  | some (n, r) =>
    if n ≤ r.length then some (String.mk (r.take n), r.drop n) else none

theorem parseStr_enc (s : String) (r : List Char) :
    parseStr (encStr s ++ r) = some (s, r) := by
  unfold parseStr encStr
  rw [List.append_assoc, parseNat_enc]
  have hlen : s.length = s.data.length := rfl
  simp only [hlen]
  rw [if_pos (by simp), List.take_left, List.drop_left]

def encOptNat : Option Nat → List Char
  | none => ['N']
  | some n => 'S' :: encNat n

def parseOptNat : List Char → Option (Option Nat × List Char)
  | 'N' :: r => some (none, r)
  | 'S' :: r =>
    match parseNat r with
    | none => none
    | some (n, t) => some (some n, t)
  | _ => none

theorem parseOptNat_enc (o : Option Nat) (r : List Char) :
    parseOptNat (encOptNat o ++ r) = some (o, r) := by
  cases o with
  | none => rfl
  | some n => simp [encOptNat, parseOptNat, parseNat_enc]

def encListWith {α : Type} (enc : α → List Char) : List α → List Char
  | [] => []
  | x :: xs => enc x ++ encListWith enc xs

/-- Encoded list: count-prefixed concatenation of encoded elements. -/
def encList {α : Type} (enc : α → List Char) (xs : List α) : List Char :=
  encNat xs.length ++ encListWith enc xs

def parseListN {α : Type} (p : List Char → Option (α × List Char)) :
    Nat → List Char → Option (List α × List Char)
  | 0, cs => some ([], cs)
  | Nat.succ k, cs =>
    match p cs with
    | none => none
    | some (a, r) =>
      match parseListN p k r with
      | none => none
      | some (as, r2) => some (a :: as, r2)

def parseList {α : Type} (p : List Char → Option (α × List Char))
    (cs : List Char) : Option (List α × List Char) :=
  match parseNat cs with
  | none => none
  | some (n, r) => parseListN p n r

theorem parseListN_enc {α : Type} (p : List Char → Option (α × List Char))
    (enc : α → List Char) (hp : ∀ x r, p (enc x ++ r) = some (x, r))
    (xs : List α) (r : List Char) :
    parseListN p xs.length (encListWith enc xs ++ r) = some (xs, r) := by
  induction xs generalizing r with
  | nil => rfl
  | cons x xs ih =>
    simp only [List.length_cons, encListWith, List.append_assoc, parseListN, hp, ih]

theorem parseList_enc {α : Type} (p : List Char → Option (α × List Char))
    (enc : α → List Char) (hp : ∀ x r, p (enc x ++ r) = some (x, r))
    (xs : List α) (r : List Char) :
    parseList p (encList enc xs ++ r) = some (xs, r) := by
  unfold parseList encList
  rw [List.append_assoc, parseNat_enc]
  exact parseListN_enc p enc hp xs r

/-! ### X.509 data model (shallow embedding of the `cryptography` objects
used by `cert_utils.py`).

RSA keys are modelled by a numeric identifier: `generate_private_key`
draws a fresh identifier from a counter, and the "public key" of a key
is the identifier itself.  A certificate records which key it certifies
(`publicKey`) and which key produced its signature (`signatureKey`),
which is exactly the information the source manipulates
(`builder.public_key(...)` / `builder.sign(signing_key, SHA256)`). -/

namespace Certosaurus

/-- X.509 name-attribute OIDs used by `build_subject_name` (numeric tags
standing for `NameOID.*`). -/
def COMMON_NAME : Nat := 3
def ORGANIZATION_NAME : Nat := 10
def ORGANIZATIONAL_UNIT_NAME : Nat := 11
def COUNTRY_NAME : Nat := 6
def STATE_OR_PROVINCE_NAME : Nat := 8
def LOCALITY_NAME : Nat := 7
def EMAIL_ADDRESS : Nat := 99

/-- Tags for `ExtendedKeyUsageOID.*`. -/
def SERVER_AUTH : Nat := 1
def CLIENT_AUTH : Nat := 2

/-- An X.509 name: ordered attribute list `(OID, value)`. -/
abbrev X509Name := List (Nat × String)

/-- An IP address as produced by `ipaddress.ip_address`. -/
inductive IpAddr : Type
  | v4 (a b c d : Nat)
  | v6 (groups : List Nat)
deriving DecidableEq

/-- A SAN entry (`x509.DNSName` / `x509.IPAddress` / `x509.RFC822Name`). -/
inductive GeneralName : Type
  | dns (s : String)
  | ip (a : IpAddr)
  | rfc822 (s : String)
deriving DecidableEq

/-- Payload of an X.509 extension, covering the extensions
`cert_utils.py` attaches. -/
inductive ExtensionValue : Type
  | basicConstraints (ca : Bool) (path_length : Option Nat)
  | keyUsage (digital_signature content_commitment key_encipherment
      data_encipherment key_agreement key_cert_sign crl_sign
      encipher_only decipher_only : Bool)
  | extendedKeyUsage (oids : List Nat)
  | subjectAlternativeName (entries : List GeneralName)
  | subjectKeyIdentifier (key_id : Nat)
  | authorityKeyIdentifier (key_id : Nat)
deriving DecidableEq

/-- An extension together with its criticality flag
(`builder.add_extension(value, critical=...)`). -/
structure Extension : Type where
  value : ExtensionValue
  critical : Bool
deriving DecidableEq

/-- An X.509 certificate as built by `x509.CertificateBuilder`. -/
structure Cert : Type where
  subject : X509Name
  issuer : X509Name
  serial_number : Nat
  not_valid_before : Nat
  not_valid_after : Nat
  publicKey : Nat
  extensions : List Extension
  signatureKey : Nat
deriving DecidableEq

/-! #### PEM codec for the model.

Modelled from the spec: the real encoder/decoder is the `cryptography`
library (not part of this repository); §4.1 specifies
`encode_certificate`/`load_certificate` as a PEM round trip
(`load_certificate(encode_certificate(x)) == x`, §8), which is modelled
as an injective text encoding with full inversion. -/

def encIp : IpAddr → List Char
  | .v4 a b c d => '4' :: (encNat a ++ encNat b ++ encNat c ++ encNat d)
  | .v6 gs => '6' :: encList encNat gs

def parseIpChars : List Char → Option (IpAddr × List Char)
  | '4' :: r =>
    match parseNat r with
    | none => none
    | some (a, r1) =>
      match parseNat r1 with
      | none => none
      | some (b, r2) =>
        match parseNat r2 with
        | none => none
        | some (c, r3) =>
          match parseNat r3 with
          | none => none
          | some (d, r4) => some (.v4 a b c d, r4)
  | '6' :: r =>
    match parseList parseNat r with
    | none => none
    | some (gs, r1) => some (.v6 gs, r1)
  | _ => none

theorem parseIpChars_enc (a : IpAddr) (r : List Char) :
    parseIpChars (encIp a ++ r) = some (a, r) := by
  cases a with
  | v4 x y z w =>
    simp [encIp, parseIpChars, List.append_assoc, parseNat_enc]
  | v6 gs =>
    simp [encIp, parseIpChars, parseList_enc parseNat encNat parseNat_enc]

def encGeneralName : GeneralName → List Char
  | .dns s => 'D' :: encStr s
  | .ip a => 'I' :: encIp a
  | .rfc822 s => 'R' :: encStr s

def parseGeneralName : List Char → Option (GeneralName × List Char)
  | 'D' :: r =>
    match parseStr r with
    | none => none
    | some (s, r1) => some (.dns s, r1)
  | 'I' :: r =>
    match parseIpChars r with
    | none => none
    | some (a, r1) => some (.ip a, r1)
  | 'R' :: r =>
    match parseStr r with
    | none => none
    | some (s, r1) => some (.rfc822 s, r1)
  | _ => none

theorem parseGeneralName_enc (g : GeneralName) (r : List Char) :
    parseGeneralName (encGeneralName g ++ r) = some (g, r) := by
  cases g with
  | dns s => simp [encGeneralName, parseGeneralName, parseStr_enc]
  | ip a => simp [encGeneralName, parseGeneralName, parseIpChars_enc]
  | rfc822 s => simp [encGeneralName, parseGeneralName, parseStr_enc]

def encExtVal : ExtensionValue → List Char
  | .basicConstraints ca pl => 'B' :: (encBool ca ++ encOptNat pl)
  | .keyUsage b1 b2 b3 b4 b5 b6 b7 b8 b9 =>
      'K' :: (encBool b1 ++ encBool b2 ++ encBool b3 ++ encBool b4 ++ encBool b5
        ++ encBool b6 ++ encBool b7 ++ encBool b8 ++ encBool b9)
  | .extendedKeyUsage oids => 'E' :: encList encNat oids
  | .subjectAlternativeName entries => 'A' :: encList encGeneralName entries
  | .subjectKeyIdentifier k => 'S' :: encNat k
  | .authorityKeyIdentifier k => 'U' :: encNat k

def parseExtVal : List Char → Option (ExtensionValue × List Char)
  | 'B' :: r =>
    match parseBool r with
    | none => none
    | some (ca, r1) =>
      match parseOptNat r1 with
      | none => none
      | some (pl, r2) => some (.basicConstraints ca pl, r2)
  | 'K' :: r =>
    match parseBool r with
    | none => none
    | some (b1, r1) =>
      match parseBool r1 with
      | none => none
      | some (b2, r2) =>
        match parseBool r2 with
        | none => none
        | some (b3, r3) =>
          match parseBool r3 with
          | none => none
          | some (b4, r4) =>
            match parseBool r4 with
            | none => none
            | some (b5, r5) =>
              match parseBool r5 with
              | none => none
              | some (b6, r6) =>
                match parseBool r6 with
                | none => none
                | some (b7, r7) =>
                  match parseBool r7 with
                  | none => none
                  | some (b8, r8) =>
                    match parseBool r8 with
                    | none => none
                    | some (b9, r9) =>
                      some (.keyUsage b1 b2 b3 b4 b5 b6 b7 b8 b9, r9)
  | 'E' :: r =>
    match parseList parseNat r with
    | none => none
    | some (oids, r1) => some (.extendedKeyUsage oids, r1)
  | 'A' :: r =>
    match parseList parseGeneralName r with
    | none => none
    | some (entries, r1) => some (.subjectAlternativeName entries, r1)
  | 'S' :: r =>
    match parseNat r with
    | none => none
    | some (k, r1) => some (.subjectKeyIdentifier k, r1)
  | 'U' :: r =>
    match parseNat r with
    | none => none
    | some (k, r1) => some (.authorityKeyIdentifier k, r1)
  | _ => none

theorem parseExtVal_enc (v : ExtensionValue) (r : List Char) :
    parseExtVal (encExtVal v ++ r) = some (v, r) := by
  cases v with
  | basicConstraints ca pl =>
    simp [encExtVal, parseExtVal, List.append_assoc, parseBool_enc, parseOptNat_enc]
  | keyUsage b1 b2 b3 b4 b5 b6 b7 b8 b9 =>
    simp [encExtVal, parseExtVal, List.append_assoc, parseBool_enc]
  | extendedKeyUsage oids =>
    simp [encExtVal, parseExtVal, parseList_enc parseNat encNat parseNat_enc]
  | subjectAlternativeName entries =>
    simp [encExtVal, parseExtVal,
      parseList_enc parseGeneralName encGeneralName parseGeneralName_enc]
  | subjectKeyIdentifier k => simp [encExtVal, parseExtVal, parseNat_enc]
  | authorityKeyIdentifier k => simp [encExtVal, parseExtVal, parseNat_enc]

def encExtension (e : Extension) : List Char :=
  encExtVal e.value ++ encBool e.critical

def parseExtension (cs : List Char) : Option (Extension × List Char) :=
  match parseExtVal cs with
  | none => none
  | some (v, r) =>
    match parseBool r with
    | none => none
    | some (c, r1) => some (⟨v, c⟩, r1)

theorem parseExtension_enc (e : Extension) (r : List Char) :
    parseExtension (encExtension e ++ r) = some (e, r) := by
  simp [encExtension, parseExtension, List.append_assoc, parseExtVal_enc, parseBool_enc]

def encAttr (a : Nat × String) : List Char := encNat a.1 ++ encStr a.2

def parseAttr (cs : List Char) : Option ((Nat × String) × List Char) :=
  match parseNat cs with
  | none => none
  | some (o, r) =>
    match parseStr r with
    | none => none
    | some (v, r1) => some ((o, v), r1)

theorem parseAttr_enc (a : Nat × String) (r : List Char) :
    parseAttr (encAttr a ++ r) = some (a, r) := by
  simp [encAttr, parseAttr, List.append_assoc, parseNat_enc, parseStr_enc]

def encName (n : X509Name) : List Char := encList encAttr n

def parseName (cs : List Char) : Option (X509Name × List Char) :=
  parseList parseAttr cs

theorem parseName_enc (n : X509Name) (r : List Char) :
    parseName (encName n ++ r) = some (n, r) :=
  parseList_enc parseAttr encAttr parseAttr_enc n r

/-- Literal matcher (consumes an expected prefix). -/
def parseLit : List Char → List Char → Option (List Char)
  | [], cs => some cs
  | _ :: _, [] => none
  | l :: ls, c :: cs => if l = c then parseLit ls cs else none

theorem parseLit_enc (lit r : List Char) : parseLit lit (lit ++ r) = some r := by
  induction lit with
  | nil => rfl
  | cons l ls ih => simp [parseLit, ih]

def CERT_HEADER : List Char := "CERT;".data

def KEY_HEADER : List Char := "KEY;".data

/-- Model of the PEM text of a certificate. -/
def encodeCert (c : Cert) : List Char :=
  CERT_HEADER ++ encName c.subject ++ encName c.issuer ++ encNat c.serial_number
    ++ encNat c.not_valid_before ++ encNat c.not_valid_after ++ encNat c.publicKey
    ++ encList encExtension c.extensions ++ encNat c.signatureKey

/-- Model of `serialize_certificate`: certificate → PEM text. -/
def serialize_certificate (c : Cert) : String :=
  String.mk (encodeCert c)

/-- Model of `x509.load_pem_x509_certificate`: parses the PEM text of a
certificate, `none` on malformed input. -/
def parseCert (cs : List Char) : Option Cert :=
  match parseLit CERT_HEADER cs with
  | none => none
  | some r0 =>
    match parseName r0 with
    | none => none
    | some (subj, r1) =>
      match parseName r1 with
      | none => none
      | some (iss, r2) =>
        match parseNat r2 with
        | none => none
        | some (serial, r3) =>
          match parseNat r3 with
          | none => none
          | some (nb, r4) =>
            match parseNat r4 with
            | none => none
            | some (na, r5) =>
              match parseNat r5 with
              | none => none
              | some (pk, r6) =>
                match parseList parseExtension r6 with
                | none => none
                | some (exts, r7) =>
                  match parseNat r7 with
                  | none => none
                  | some (sk, r8) =>
                    match r8 with
                    | [] => some ⟨subj, iss, serial, nb, na, pk, exts, sk⟩
                    | _ :: _ => none

/-- Model of `load_certificate_from_pem`. -/
def load_certificate_from_pem (pem : String) : Option Cert :=
  parseCert pem.data

/-- PEM text of a private key (its identifier under `KEY;`). -/
def encodeKey (k : Nat) : List Char := KEY_HEADER ++ encNat k

/-- Model of `serialize_private_key` (no passphrase is ever passed by the
views, so the unencrypted PEM branch is the one modelled). -/
def serialize_private_key (k : Nat) : String := String.mk (encodeKey k)

/-- Model of `load_private_key_from_pem`. -/
def load_private_key_from_pem (pem : String) : Option Nat :=
  match parseLit KEY_HEADER pem.data with
  | none => none
  | some r =>
    match parseNat r with
    | none => none
    | some (k, rest) =>
      match rest with
      | [] => some k
      | _ :: _ => none

theorem parseNat_enc_nil (n : Nat) : parseNat (encNat n) = some (n, []) := by
  simpa using parseNat_enc n []

theorem parseCert_enc (c : Cert) : parseCert (encodeCert c) = some c := by
  unfold parseCert encodeCert
  simp only [List.append_assoc, parseLit_enc, parseName_enc, parseNat_enc,
    parseList_enc parseExtension encExtension parseExtension_enc, parseNat_enc_nil]

theorem load_serialize_cert (c : Cert) :
    load_certificate_from_pem (serialize_certificate c) = some c :=
  parseCert_enc c

theorem load_serialize_key (k : Nat) :
    load_private_key_from_pem (serialize_private_key k) = some k := by
  unfold load_private_key_from_pem serialize_private_key encodeKey
  simp only [parseLit_enc, parseNat_enc_nil]

/-! ### Error taxonomy (§7 of the spec).

The Python views surface these failures as unhandled exceptions or as
form-validation misses; the spec's names are used for the
corresponding failure classes of the embedded operations. -/

inductive CertError : Type
  | validationError
  | caChainError
  | invalidSANError
  | dependencyExistsError
  | notFound
deriving DecidableEq

/-! ### `cert_utils.py` -/

/-- Model of `generate_private_key(key_size)`: draws a fresh key identifier from
the key counter (RSA generation is nondeterministic in the source). -/
def generate_private_key (key_size : Nat) (kst : Nat) : Nat × Nat :=
  (kst, kst + 1)

/-- Value of the `country: str = 'US'` default of `build_subject_name`'s
signature (and the `default='US'` of the model fields). -/
def DEFAULT_COUNTRY : String := "US"

/-- Model of `build_subject_name`: common name always, optional attributes only
when non-empty (Python truthiness on strings). -/
def build_subject_name (common_name organization organizational_unit
    country state locality email : String) : X509Name :=
  [(COMMON_NAME, common_name)]
  ++ (if organization ≠ "" then [(ORGANIZATION_NAME, organization)] else [])
  ++ (if organizational_unit ≠ "" then [(ORGANIZATIONAL_UNIT_NAME, organizational_unit)] else [])
  ++ (if country ≠ "" then [(COUNTRY_NAME, country)] else [])
  ++ (if state ≠ "" then [(STATE_OR_PROVINCE_NAME, state)] else [])
  ++ (if locality ≠ "" then [(LOCALITY_NAME, locality)] else [])
  ++ (if email ≠ "" then [(EMAIL_ADDRESS, email)] else [])

/-- Model of `generate_ca_certificate`: root CA when `parent_cert is None or
parent_key is None`, intermediate otherwise.  `now`, `serial` and the
key counter `kst` thread the nondeterministic inputs.  Returns
`((certificate, private_key), new key counter)`. -/
def generate_ca_certificate (common_name organization organizational_unit
    country state locality : String) (validity_days key_size : Nat)
    (parent_cert : Option Cert) (parent_key : Option Nat)
    (now serial kst : Nat) : (Cert × Nat) × Nat :=
  let kp := generate_private_key key_size kst
  let private_key := kp.1
  let public_key := private_key
  let subject := build_subject_name common_name organization
    organizational_unit country state locality ""
  let isp : X509Name × Nat × Nat :=
    match parent_cert, parent_key with
    | some pc, some pk => (pc.subject, pk, 0)
    | _, _ => (subject, private_key, 1)
  let issuer := isp.1
  let signing_key := isp.2.1
  let path_length := isp.2.2
  let extensions : List Extension :=
    [⟨.basicConstraints true (some path_length), true⟩,
     ⟨.keyUsage true false false false false true true false false, true⟩,
     ⟨.subjectKeyIdentifier public_key, false⟩]
    ++ (match parent_cert with
        | some pc => [⟨.authorityKeyIdentifier pc.publicKey, false⟩]
        | none => [])
  ((⟨subject, issuer, serial, now, now + validity_days, public_key,
      extensions, signing_key⟩, private_key), kp.2)

/-- IP SAN entries: each non-empty string must parse via
`ipaddress.ip_address` (modelled by the `parseIp` argument), a parse
failure raises (`InvalidSANError`). -/
def sanIpEntries (parseIp : String → Option IpAddr) :
    List String → Except CertError (List GeneralName)
  | [] => .ok []
  | s :: rest =>
    if s = "" then sanIpEntries parseIp rest
    else
      match parseIp s with
      | none => .error .invalidSANError
      | some a =>
        match sanIpEntries parseIp rest with
        | .error e => .error e
        | .ok gs => .ok (.ip a :: gs)

/-- Model of `generate_server_certificate`.  The fresh key is generated first
(as in the source), so the key counter advances even when SAN parsing
fails afterwards. -/
def generate_server_certificate (parseIp : String → Option IpAddr)
    (common_name : String) (ca_cert : Cert) (ca_key : Nat)
    (san_dns_names san_ip_addresses : List String)
    (organization organizational_unit country state locality : String)
    (validity_days key_size : Nat) (now serial kst : Nat) :
    Except CertError (Cert × Nat) × Nat :=
  let kp := generate_private_key key_size kst
  let private_key := kp.1
  let public_key := private_key
  let subject := build_subject_name common_name organization
    organizational_unit country state locality ""
  let dns_entries := GeneralName.dns common_name ::
    (san_dns_names.filter (fun d => d != "" && d != common_name)).map .dns
  match sanIpEntries parseIp san_ip_addresses with
  | .error e => (.error e, kp.2)
  | .ok ip_entries =>
    let san_entries := dns_entries ++ ip_entries
    let extensions : List Extension :=
      [⟨.basicConstraints false none, true⟩,
       ⟨.keyUsage true false true false false false false false false, true⟩,
       ⟨.extendedKeyUsage [SERVER_AUTH], false⟩,
       ⟨.subjectAlternativeName san_entries, false⟩,
       ⟨.subjectKeyIdentifier public_key, false⟩,
       ⟨.authorityKeyIdentifier ca_cert.publicKey, false⟩]
    (.ok (⟨subject, ca_cert.subject, serial, now, now + validity_days,
        public_key, extensions, ca_key⟩, private_key), kp.2)

/-- Model of `generate_client_certificate`: email goes into the subject and, when
non-empty, into an `RFC822Name` SAN. -/
def generate_client_certificate (common_name : String) (ca_cert : Cert)
    (ca_key : Nat) (email organization organizational_unit country state
      locality : String) (validity_days key_size : Nat)
    (now serial kst : Nat) : (Cert × Nat) × Nat :=
  let kp := generate_private_key key_size kst
  let private_key := kp.1
  let public_key := private_key
  let subject := build_subject_name common_name organization
    organizational_unit country state locality email
  let extensions : List Extension :=
    [⟨.basicConstraints false none, true⟩,
     ⟨.keyUsage true false true false false false false false false, true⟩,
     ⟨.extendedKeyUsage [CLIENT_AUTH], false⟩]
    ++ (if email ≠ "" then
          [⟨.subjectAlternativeName [.rfc822 email], false⟩]
        else [])
    ++ [⟨.subjectKeyIdentifier public_key, false⟩,
        ⟨.authorityKeyIdentifier ca_cert.publicKey, false⟩]
  ((⟨subject, ca_cert.subject, serial, now, now + validity_days,
      public_key, extensions, ca_key⟩, private_key), kp.2)

/-- A PKCS#12 bundle (`create_p12_bundle`): leaf certificate, key and
CA certificate, encrypted under `password`. -/
structure P12Bundle : Type where
  certificate : Cert
  private_key : Nat
  ca_cert : Cert
  password : String
  friendly_name : String
deriving DecidableEq

def create_p12_bundle (certificate : Cert) (private_key : Nat)
    (ca_cert : Cert) (password : String) (friendly_name : String) : P12Bundle :=
  ⟨certificate, private_key, ca_cert, password, friendly_name⟩

/-- Model of `generate_random_password`: draws from the random counter. -/
def generate_random_password (rng : Nat) : String × Nat :=
  (String.mk (decDigits rng), rng + 1)

/-! ### `models.py`: persisted records -/

/-- Row of `CertificateAuthority`. -/
structure CARec : Type where
  id : Nat
  name : String
  common_name : String
  organization : String
  organizational_unit : String
  country : String
  state : String
  locality : String
  certificate_pem : String
  private_key_pem : String
  valid_from : Option Nat
  valid_until : Option Nat
  parent_ca : Option Nat
  is_root : Bool
deriving DecidableEq

/-- Row of `ServerCertificate`. -/
structure ServerRec : Type where
  id : Nat
  name : String
  common_name : String
  san_dns_names : String
  san_ip_addresses : String
  organization : String
  organizational_unit : String
  country : String
  state : String
  locality : String
  certificate_pem : String
  private_key_pem : String
  csr_pem : String
  certificate_chain_pem : String
  issuing_ca : Nat
  valid_from : Option Nat
  valid_until : Option Nat
  key_size : Nat
  status : String
  revoked_at : Option Nat
  revocation_reason : String
deriving DecidableEq

/-- Row of `ClientCertificate`. -/
structure ClientRec : Type where
  id : Nat
  name : String
  common_name : String
  email : String
  organization : String
  organizational_unit : String
  country : String
  state : String
  locality : String
  certificate_pem : String
  private_key_pem : String
  csr_pem : String
  p12_bundle : Option P12Bundle
  p12_password : String
  issuing_ca : Nat
  valid_from : Option Nat
  valid_until : Option Nat
  key_size : Nat
  status : String
  revoked_at : Option Nat
  revocation_reason : String
deriving DecidableEq

/-- Model of `ServerCertificate.is_valid` (a pure property of the row and the
current time; the source reads fields and mutates nothing). -/
def ServerRec.is_valid (c : ServerRec) (now : Nat) : Bool :=
  if c.status != "active" then false
  else
    match c.valid_from, c.valid_until with
    | some vf, some vu => decide (vf ≤ now) && decide (now ≤ vu)
    | _, _ => false

/-- Model of `ClientCertificate.is_valid`. -/
def ClientRec.is_valid (c : ClientRec) (now : Nat) : Bool :=
  if c.status != "active" then false
  else
    match c.valid_from, c.valid_until with
    | some vf, some vu => decide (vf ≤ now) && decide (now ≤ vu)
    | _, _ => false

/-- Model of `ServerCertificate.get_san_dns_list`: comma-split, stripped,
empties dropped. -/
def get_san_dns_list (san_dns_names : String) : List String :=
  if san_dns_names != "" then
    ((san_dns_names.splitOn ",").map String.trim).filter (fun s => s != "")
  else []

/-- Model of `ServerCertificate.get_san_ip_list`. -/
def get_san_ip_list (san_ip_addresses : String) : List String :=
  if san_ip_addresses != "" then
    ((san_ip_addresses.splitOn ",").map String.trim).filter (fun s => s != "")
  else []

/-! ### `forms.py`: request shapes and validation -/

structure CAForm : Type where
  name : String
  common_name : String
  organization : String
  organizational_unit : String
  country : String
  state : String
  locality : String
  parent_ca : Option Nat
  validity_days : Int
  key_size : Nat
deriving DecidableEq

structure ServerForm : Type where
  name : String
  common_name : String
  san_dns_names : String
  san_ip_addresses : String
  organization : String
  organizational_unit : String
  country : String
  state : String
  locality : String
  issuing_ca : Nat
  validity_days : Int
  key_size : Nat
deriving DecidableEq

structure ClientForm : Type where
  name : String
  common_name : String
  email : String
  organization : String
  organizational_unit : String
  country : String
  state : String
  locality : String
  issuing_ca : Nat
  validity_days : Int
  key_size : Nat
  generate_p12 : Bool
deriving DecidableEq

/-- Model of `CertificateAuthorityForm` validation: `validity_days ∈ [1, 7300]`
(`min_value=1, max_value=7300`), `key_size` a declared choice, the
`parent_ca` choice drawn from the CA queryset, and the model's unique
`name` constraint. -/
def caFormValid (cas : List CARec) (f : CAForm) : Bool :=
  decide (1 ≤ f.validity_days) && decide (f.validity_days ≤ 7300)
  && (f.key_size == 2048 || f.key_size == 4096)
  && (match f.parent_ca with
      | none => true
      | some pid => (cas.find? (fun c => c.id == pid)).isSome)
  && cas.all (fun c => c.name != f.name)

/-- Model of `ServerCertificateForm` validation: `validity_days ∈ [1, 825]`. -/
def serverFormValid (cas : List CARec) (f : ServerForm) : Bool :=
  decide (1 ≤ f.validity_days) && decide (f.validity_days ≤ 825)
  && (f.key_size == 2048 || f.key_size == 4096)
  && (cas.find? (fun c => c.id == f.issuing_ca)).isSome

/-- Model of `ClientCertificateForm` validation: `validity_days ∈ [1, 1095]`. -/
def clientFormValid (cas : List CARec) (f : ClientForm) : Bool :=
  decide (1 ≤ f.validity_days) && decide (f.validity_days ≤ 1095)
  && (f.key_size == 2048 || f.key_size == 4096)
  && (cas.find? (fun c => c.id == f.issuing_ca)).isSome

/-- Choices of `RevokeCertificateForm.REASON_CHOICES`. -/
def REASON_CHOICES : List String :=
  ["unspecified", "key_compromise", "ca_compromise",
   "affiliation_changed", "superseded", "cessation_of_operation"]

/-- Model of `RevokeCertificateForm` validation: an enumerated reason and the
required confirmation checkbox. -/
def revokeFormValid (reason : String) (confirm : Bool) : Bool :=
  confirm && REASON_CHOICES.contains reason

/-! ### `views.py`: the lifecycle store operations.

`Sys` is the persisted state (the three tables) together with the
counters that feed key generation and random passwords.  Each view
returns `(optional error, new state)`; an error leaves the tables as
the view left them (the Python exception propagates before any
`save()`). -/

structure Sys : Type where
  cas : List CARec
  server_certs : List ServerRec
  client_certs : List ClientRec
  key_state : Nat
  rng : Nat
deriving DecidableEq

def findCA (sys : Sys) (pk : Nat) : Option CARec :=
  sys.cas.find? (fun c => c.id == pk)

def findServer (sys : Sys) (pk : Nat) : Option ServerRec :=
  sys.server_certs.find? (fun c => c.id == pk)

def findClient (sys : Sys) (pk : Nat) : Option ClientRec :=
  sys.client_certs.find? (fun c => c.id == pk)

/-- Tail of `ca_create` once the parent material (if any) is loaded:
generate, then persist as the one final step. -/
def caCreateFinish (sys : Sys) (form : CAForm) (now serial new_id : Nat)
    (is_root : Bool) (pc : Option Cert) (pk : Option Nat) :
    Option CertError × Sys :=
  let g := generate_ca_certificate form.common_name form.organization
    form.organizational_unit form.country form.state form.locality
    form.validity_days.toNat form.key_size pc pk now serial sys.key_state
  let cert := g.1.1
  let private_key := g.1.2
  let newRec : CARec :=
    { id := new_id
      name := form.name
      common_name := form.common_name
      organization := form.organization
      organizational_unit := form.organizational_unit
      country := form.country
      state := form.state
      locality := form.locality
      certificate_pem := serialize_certificate cert
      private_key_pem := serialize_private_key private_key
      valid_from := some cert.not_valid_before
      valid_until := some cert.not_valid_after
      parent_ca := form.parent_ca
      is_root := is_root }
  (none, { sys with cas := sys.cas ++ [newRec], key_state := g.2 })

/-- Model of `ca_create` (POST branch). -/
def ca_create (sys : Sys) (form : CAForm) (now serial new_id : Nat) :
    Option CertError × Sys :=
  if !(caFormValid sys.cas form) then (some .validationError, sys)
  else
    match form.parent_ca with
    | some pid =>
      match findCA sys pid with
      | none => (some .notFound, sys)
      | some pca =>
        match load_certificate_from_pem pca.certificate_pem,
              load_private_key_from_pem pca.private_key_pem with
        | some pcert, some pkey =>
          caCreateFinish sys form now serial new_id false (some pcert) (some pkey)
        | _, _ => (some .caChainError, sys)
    | none => caCreateFinish sys form now serial new_id true none none

/-- Model of `ca_delete`: blocked while any server certificate, client
certificate or child CA references the CA. -/
def ca_delete (sys : Sys) (pk : Nat) : Option CertError × Sys :=
  match findCA sys pk with
  | none => (some .notFound, sys)
  | some ca =>
    let server_count := (sys.server_certs.filter (fun c => c.issuing_ca == ca.id)).length
    let client_count := (sys.client_certs.filter (fun c => c.issuing_ca == ca.id)).length
    let child_count := (sys.cas.filter (fun c => c.parent_ca == some ca.id)).length
    if server_count > 0 || client_count > 0 || child_count > 0 then
      (some .dependencyExistsError, sys)
    else
      (none, { sys with cas := sys.cas.filter (fun c => !(c.id == pk)) })

/-- Model of `server_cert_create` (POST branch). -/
def server_cert_create (parseIp : String → Option IpAddr) (sys : Sys)
    (form : ServerForm) (now serial new_id : Nat) : Option CertError × Sys :=
  if sys.cas.isEmpty then (some .notFound, sys)
  else if !(serverFormValid sys.cas form) then (some .validationError, sys)
  else
    match findCA sys form.issuing_ca with
    | none => (some .notFound, sys)
    | some ca =>
      match load_certificate_from_pem ca.certificate_pem,
            load_private_key_from_pem ca.private_key_pem with
      | some ca_cert, some ca_key =>
        let san_dns := get_san_dns_list form.san_dns_names
        let san_ips := get_san_ip_list form.san_ip_addresses
        let g := generate_server_certificate parseIp form.common_name ca_cert
          ca_key san_dns san_ips form.organization form.organizational_unit
          form.country form.state form.locality form.validity_days.toNat
          form.key_size now serial sys.key_state
        match g.1 with
        | .error e => (some e, { sys with key_state := g.2 })
        | .ok certkey =>
          let cert_pem := serialize_certificate certkey.1
          let newRec : ServerRec :=
            { id := new_id
              name := form.name
              common_name := form.common_name
              san_dns_names := form.san_dns_names
              san_ip_addresses := form.san_ip_addresses
              organization := form.organization
              organizational_unit := form.organizational_unit
              country := form.country
              state := form.state
              locality := form.locality
              certificate_pem := cert_pem
              private_key_pem := serialize_private_key certkey.2
              csr_pem := ""
              certificate_chain_pem := cert_pem ++ ca.certificate_pem
              issuing_ca := ca.id
              valid_from := some certkey.1.not_valid_before
              valid_until := some certkey.1.not_valid_after
              key_size := form.key_size
              status := "active"
              revoked_at := none
              revocation_reason := "" }
          (none, { sys with server_certs := sys.server_certs ++ [newRec],
                            key_state := g.2 })
      | _, _ => (some .caChainError, sys)

/-- Model of `client_cert_create` (POST branch). -/
def client_cert_create (sys : Sys) (form : ClientForm)
    (now serial new_id : Nat) : Option CertError × Sys :=
  if sys.cas.isEmpty then (some .notFound, sys)
  else if !(clientFormValid sys.cas form) then (some .validationError, sys)
  else
    match findCA sys form.issuing_ca with
    | none => (some .notFound, sys)
    | some ca =>
      match load_certificate_from_pem ca.certificate_pem,
            load_private_key_from_pem ca.private_key_pem with
      | some ca_cert, some ca_key =>
        let g := generate_client_certificate form.common_name ca_cert ca_key
          form.email form.organization form.organizational_unit form.country
          form.state form.locality form.validity_days.toNat form.key_size
          now serial sys.key_state
        let cert := g.1.1
        let private_key := g.1.2
        let p12 : Option P12Bundle × String × Nat :=
          if form.generate_p12 then
            let pw := generate_random_password sys.rng
            (some (create_p12_bundle cert private_key ca_cert pw.1 form.name),
              pw.1, pw.2)
          else (none, "", sys.rng)
        let newRec : ClientRec :=
          { id := new_id
            name := form.name
            common_name := form.common_name
            email := form.email
            organization := form.organization
            organizational_unit := form.organizational_unit
            country := form.country
            state := form.state
            locality := form.locality
            certificate_pem := serialize_certificate cert
            private_key_pem := serialize_private_key private_key
            csr_pem := ""
            p12_bundle := p12.1
            p12_password := p12.2.1
            issuing_ca := ca.id
            valid_from := some cert.not_valid_before
            valid_until := some cert.not_valid_after
            key_size := form.key_size
            status := "active"
            revoked_at := none
            revocation_reason := "" }
        (none, { sys with client_certs := sys.client_certs ++ [newRec],
                          key_state := g.2, rng := p12.2.2 })
      | _, _ => (some .caChainError, sys)

/-- Model of `server_cert_revoke`: when the revoke form validates, the status,
revocation timestamp and reason are written unconditionally (the
source performs no status check). -/
def server_cert_revoke (sys : Sys) (pk : Nat) (reason : String)
    (confirm : Bool) (now : Nat) : Option CertError × Sys :=
  match findServer sys pk with
  | none => (some .notFound, sys)
  | some _ =>
    if revokeFormValid reason confirm then
      (none, { sys with server_certs := sys.server_certs.map (fun c =>
        if c.id == pk then
          { c with status := "revoked", revoked_at := some now,
                   revocation_reason := reason }
        else c) })
    else (none, sys)

/-- Model of `client_cert_revoke`. -/
def client_cert_revoke (sys : Sys) (pk : Nat) (reason : String)
    (confirm : Bool) (now : Nat) : Option CertError × Sys :=
  match findClient sys pk with
  | none => (some .notFound, sys)
  | some _ =>
    if revokeFormValid reason confirm then
      (none, { sys with client_certs := sys.client_certs.map (fun c =>
        if c.id == pk then
          { c with status := "revoked", revoked_at := some now,
                   revocation_reason := reason }
        else c) })
    else (none, sys)

/-! ### Extension accessors -/

/-- First `BasicConstraints` extension: `(ca, path_length, critical)`. -/
def getBasicConstraints (c : Cert) : Option (Bool × Option Nat × Bool) :=
  c.extensions.findSome? (fun e => match e.value with
    | .basicConstraints ca pl => some (ca, pl, e.critical)
    | _ => none)

/-- First `SubjectAlternativeName` extension's entry list. -/
def getSAN (c : Cert) : Option (List GeneralName) :=
  c.extensions.findSome? (fun e => match e.value with
    | .subjectAlternativeName es => some es
    | _ => none)

/-! ### Claims -/

/-- C1: `generate_ca_certificate` with no parent yields a
self-signed root: issuer equals subject, the certificate is signed
with the freshly generated key (which is also the certified key), and
the critical `BasicConstraints` has `path_length = 1`.  With a parent,
the issuer is the parent certificate's subject, the signature key is
the parent's private key, and `path_length = 0`. -/
theorem ca_shape_root_and_intermediate
    (cn org ou co st lo : String) (vd ks now serial kst : Nat) :
    ((generate_ca_certificate cn org ou co st lo vd ks none none
        now serial kst).1.1.issuer
      = (generate_ca_certificate cn org ou co st lo vd ks none none
        now serial kst).1.1.subject
     ∧ (generate_ca_certificate cn org ou co st lo vd ks none none
        now serial kst).1.1.signatureKey
      = (generate_ca_certificate cn org ou co st lo vd ks none none
        now serial kst).1.2
     ∧ (generate_ca_certificate cn org ou co st lo vd ks none none
        now serial kst).1.1.publicKey
      = (generate_ca_certificate cn org ou co st lo vd ks none none
        now serial kst).1.2
     ∧ getBasicConstraints
        (generate_ca_certificate cn org ou co st lo vd ks none none
          now serial kst).1.1 = some (true, some 1, true))
    ∧ ∀ (pc : Cert) (pk : Nat),
      (generate_ca_certificate cn org ou co st lo vd ks (some pc) (some pk)
          now serial kst).1.1.issuer = pc.subject
      ∧ (generate_ca_certificate cn org ou co st lo vd ks (some pc) (some pk)
          now serial kst).1.1.signatureKey = pk
      ∧ getBasicConstraints
          (generate_ca_certificate cn org ou co st lo vd ks (some pc) (some pk)
            now serial kst).1.1 = some (true, some 0, true) := by
  exact ⟨⟨rfl, rfl, rfl, rfl⟩, fun pc pk => ⟨rfl, rfl, rfl⟩⟩

/-- C9: PEM round trip: loading the PEM produced by
`serialize_certificate` recovers the certificate, in particular its
subject, issuer, serial number and validity window. -/
theorem load_certificate_round_trip (x : Cert) :
    ∃ y, load_certificate_from_pem (serialize_certificate x) = some y
      ∧ y.subject = x.subject ∧ y.issuer = x.issuer
      ∧ y.serial_number = x.serial_number
      ∧ y.not_valid_before = x.not_valid_before
      ∧ y.not_valid_after = x.not_valid_after :=
  ⟨x, load_serialize_cert x, rfl, rfl, rfl, rfl, rfl⟩



theorem mem_optAttr {p : Prop} [Decidable p] (x y : Nat × String) :
    (y ∈ if p then [x] else []) ↔ (y = x ∧ p) := by
  split
  · simp_all
  · simp_all

/-- Membership characterization for `build_subject_name`. -/
theorem build_subject_mem (cn org ou co st lo em : String) (oid : Nat) (v : String) :
    (oid, v) ∈ build_subject_name cn org ou co st lo em ↔
      ((oid = COMMON_NAME ∧ v = cn)
       ∨ (oid = ORGANIZATION_NAME ∧ v = org ∧ org ≠ "")
       ∨ (oid = ORGANIZATIONAL_UNIT_NAME ∧ v = ou ∧ ou ≠ "")
       ∨ (oid = COUNTRY_NAME ∧ v = co ∧ co ≠ "")
       ∨ (oid = STATE_OR_PROVINCE_NAME ∧ v = st ∧ st ≠ "")
       ∨ (oid = LOCALITY_NAME ∧ v = lo ∧ lo ≠ "")
       ∨ (oid = EMAIL_ADDRESS ∧ v = em ∧ em ≠ "")) := by
  simp only [build_subject_name, List.cons_append, List.nil_append, List.mem_cons,
    List.mem_append, mem_optAttr, Prod.mk.injEq, and_assoc, or_assoc]

/-- C8: `build_subject_name` always places the common name first;
an optional attribute never appears with an empty value, and an
optional field supplied empty is omitted entirely from the name. -/
theorem build_subject_optional_fields (cn org ou co st lo em : String) :
    (build_subject_name cn org ou co st lo em).head? = some (COMMON_NAME, cn)
    ∧ (∀ oid v, (oid, v) ∈ build_subject_name cn org ou co st lo em →
        oid ≠ COMMON_NAME → v ≠ "")
    ∧ (org = "" → ∀ v, (ORGANIZATION_NAME, v) ∉ build_subject_name cn org ou co st lo em)
    ∧ (ou = "" → ∀ v, (ORGANIZATIONAL_UNIT_NAME, v) ∉ build_subject_name cn org ou co st lo em)
    ∧ (co = "" → ∀ v, (COUNTRY_NAME, v) ∉ build_subject_name cn org ou co st lo em)
    ∧ (st = "" → ∀ v, (STATE_OR_PROVINCE_NAME, v) ∉ build_subject_name cn org ou co st lo em)
    ∧ (lo = "" → ∀ v, (LOCALITY_NAME, v) ∉ build_subject_name cn org ou co st lo em)
    ∧ (em = "" → ∀ v, (EMAIL_ADDRESS, v) ∉ build_subject_name cn org ou co st lo em) := by
  refine ⟨rfl, ?_, ?_, ?_, ?_, ?_, ?_, ?_⟩
  · intro oid v hmem hne
    rw [build_subject_mem] at hmem
    rcases hmem with ⟨h1, _⟩ | ⟨_, h2, h3⟩ | ⟨_, h2, h3⟩ | ⟨_, h2, h3⟩
      | ⟨_, h2, h3⟩ | ⟨_, h2, h3⟩ | ⟨_, h2, h3⟩
    · exact absurd h1 hne
    all_goals (subst h2; exact h3)
  all_goals
    intro hempty v hmem
    rw [build_subject_mem] at hmem
    simp [COMMON_NAME, ORGANIZATION_NAME, ORGANIZATIONAL_UNIT_NAME, COUNTRY_NAME,
      STATE_OR_PROVINCE_NAME, LOCALITY_NAME, EMAIL_ADDRESS, hempty] at hmem

/-- Witness for the hypotheses of `build_subject_optional_fields`
(empty optional fields at a concrete input). -/
theorem build_subject_optional_fields_witness :
    (∀ v, (ORGANIZATION_NAME, v) ∉ build_subject_name "web" "" "x" "US" "" "" "")
    ∧ (∀ v, (EMAIL_ADDRESS, v) ∉ build_subject_name "web" "" "x" "US" "" "" "") :=
  ⟨(build_subject_optional_fields "web" "" "x" "US" "" "" "").2.2.1 rfl,
   (build_subject_optional_fields "web" "" "x" "US" "" "" "").2.2.2.2.2.2.2 rfl⟩

/-- C10: the codec's default country is `'US'`: a subject built
with the default country carries a `COUNTRY_NAME` attribute `'US'`, and
the country attribute is absent exactly when the caller passes an empty
country string. -/
theorem default_country_attr :
    DEFAULT_COUNTRY = "US"
    ∧ (∀ cn org ou st lo em,
        (COUNTRY_NAME, "US") ∈ build_subject_name cn org ou DEFAULT_COUNTRY st lo em)
    ∧ (∀ cn org ou co st lo em,
        (∀ v, (COUNTRY_NAME, v) ∉ build_subject_name cn org ou co st lo em) ↔ co = "") := by
  refine ⟨rfl, ?_, ?_⟩
  · intro cn org ou st lo em
    rw [build_subject_mem]
    exact Or.inr (Or.inr (Or.inr (Or.inl ⟨rfl, rfl, by decide⟩)))
  · intro cn org ou co st lo em
    constructor
    · intro habs
      by_contra hco
      exact habs co (by
        rw [build_subject_mem]
        exact Or.inr (Or.inr (Or.inr (Or.inl ⟨rfl, rfl, hco⟩))))
    · intro hco v hmem
      rw [build_subject_mem] at hmem
      simp [COMMON_NAME, ORGANIZATION_NAME, ORGANIZATIONAL_UNIT_NAME, COUNTRY_NAME,
        STATE_OR_PROVINCE_NAME, LOCALITY_NAME, EMAIL_ADDRESS, hco] at hmem

/-- Witness for `default_country_attr` at a concrete subject. -/
theorem default_country_attr_witness :
    (COUNTRY_NAME, "US") ∈ build_subject_name "web" "" "" DEFAULT_COUNTRY "" "" ""
    ∧ ((∀ v, (COUNTRY_NAME, v) ∉ build_subject_name "web" "" "" "" "" "" "")
        ↔ ("" : String) = "") :=
  ⟨default_country_attr.2.1 "web" "" "" "" "" "",
   default_country_attr.2.2 "web" "" "" "" "" "" ""⟩

def sampleServer : ServerRec :=
  { id := 1, name := "web", common_name := "www.example.com",
    san_dns_names := "", san_ip_addresses := "", organization := "",
    organizational_unit := "", country := "US", state := "", locality := "",
    certificate_pem := "", private_key_pem := "", csr_pem := "",
    certificate_chain_pem := "", issuing_ca := 7, valid_from := some 0,
    valid_until := some 1000, key_size := 2048, status := "active",
    revoked_at := none, revocation_reason := "" }

def sampleClient : ClientRec :=
  { id := 2, name := "alice", common_name := "alice@example.com",
    email := "alice@example.com", organization := "", organizational_unit := "",
    country := "US", state := "", locality := "", certificate_pem := "",
    private_key_pem := "", csr_pem := "", p12_bundle := none, p12_password := "",
    issuing_ca := 7, valid_from := some 0, valid_until := some 1000,
    key_size := 2048, status := "active", revoked_at := none,
    revocation_reason := "" }

/-- C7: `is_valid` holds exactly when the status is `'active'` and
the clock lies inside the validity window; it is a pure function of the
row and the clock (by its type, it can mutate nothing). -/
theorem is_valid_characterization (s : ServerRec) (c : ClientRec)
    (now svf svu cvf cvu : Nat)
    (hs1 : s.valid_from = some svf) (hs2 : s.valid_until = some svu)
    (hc1 : c.valid_from = some cvf) (hc2 : c.valid_until = some cvu) :
    (s.is_valid now = true ↔ (s.status = "active" ∧ svf ≤ now ∧ now ≤ svu))
    ∧ (c.is_valid now = true ↔ (c.status = "active" ∧ cvf ≤ now ∧ now ≤ cvu)) := by
  constructor
  · rw [ServerRec.is_valid, hs1, hs2]
    by_cases hst : s.status = "active" <;> simp [hst]
  · rw [ClientRec.is_valid, hc1, hc2]
    by_cases hst : c.status = "active" <;> simp [hst]

/-- Witness for `is_valid_characterization` at concrete rows. -/
theorem is_valid_characterization_witness :
    (sampleServer.is_valid 500 = true
      ↔ (sampleServer.status = "active" ∧ 0 ≤ 500 ∧ 500 ≤ 1000))
    ∧ (sampleClient.is_valid 500 = true
      ↔ (sampleClient.status = "active" ∧ 0 ≤ 500 ∧ 500 ≤ 1000)) :=
  is_valid_characterization sampleServer sampleClient 500 0 1000 0 1000
    rfl rfl rfl rfl

theorem sanIpEntries_ok_shapes (parse : String → Option IpAddr)
    (ips : List String) (es : List GeneralName)
    (h : sanIpEntries parse ips = .ok es) :
    ∀ e ∈ es, ∃ a, e = GeneralName.ip a := by
  induction ips generalizing es with
  | nil =>
    simp only [sanIpEntries] at h
    cases h
    intro e he
    simp at he
  | cons s rest ih =>
    simp only [sanIpEntries] at h
    split at h
    · exact ih es h
    · cases hp : parse s with
      | none => rw [hp] at h; cases h
      | some a =>
        rw [hp] at h
        cases hrec : sanIpEntries parse rest with
        | error e => rw [hrec] at h; cases h
        | ok gs =>
          rw [hrec] at h
          cases h
          intro e he
          rcases List.mem_cons.mp he with he | he
          · exact ⟨a, he⟩
          · exact ih gs hrec e he

theorem sanIpEntries_error_of_bad (parse : String → Option IpAddr)
    (ips : List String) (h : ∃ s ∈ ips, s ≠ "" ∧ parse s = none) :
    sanIpEntries parse ips = .error .invalidSANError := by
  induction ips with
  | nil => simp at h
  | cons s rest ih =>
    rcases h with ⟨t, ht, htne, htp⟩
    rcases List.mem_cons.mp ht with rfl | ht
    · simp only [sanIpEntries, if_neg htne, htp]
    · simp only [sanIpEntries]
      split
      · exact ih ⟨t, ht, htne, htp⟩
      · cases hp : parse s with
        | none => rfl
        | some a => rw [ih ⟨t, ht, htne, htp⟩]

/-- C5: in a server certificate's SAN, the common name is the first
DNS entry and occurs exactly once (duplicates from `dns_sans` are
suppressed), followed by the remaining DNS entries and then the parsed
IP entries; a non-empty `ip_sans` entry that does not parse as an IP
literal makes generation fail with `InvalidSANError`. -/
theorem server_cert_san_spec (parse : String → Option IpAddr) (cn : String)
    (ca_cert : Cert) (ca_key : Nat) (dns ips : List String)
    (org ou co st lo : String) (vd ks now serial kst : Nat) :
    (∀ es, sanIpEntries parse ips = .ok es →
      ∃ cert key,
        (generate_server_certificate parse cn ca_cert ca_key dns ips
          org ou co st lo vd ks now serial kst).1 = .ok (cert, key)
        ∧ getSAN cert = some (GeneralName.dns cn ::
            ((dns.filter (fun d => d != "" && d != cn)).map GeneralName.dns ++ es))
        ∧ (GeneralName.dns cn ::
            ((dns.filter (fun d => d != "" && d != cn)).map GeneralName.dns ++ es)).count
              (GeneralName.dns cn) = 1)
    ∧ ((∃ s ∈ ips, s ≠ "" ∧ parse s = none) →
        (generate_server_certificate parse cn ca_cert ca_key dns ips
          org ou co st lo vd ks now serial kst).1 = .error .invalidSANError) := by
  constructor
  · intro es hok
    have hred : (generate_server_certificate parse cn ca_cert ca_key dns ips
        org ou co st lo vd ks now serial kst).1
        = .ok (⟨build_subject_name cn org ou co st lo "",
            ca_cert.subject, serial, now, now + vd, kst,
            [⟨.basicConstraints false none, true⟩,
             ⟨.keyUsage true false true false false false false false false, true⟩,
             ⟨.extendedKeyUsage [SERVER_AUTH], false⟩,
             ⟨.subjectAlternativeName (GeneralName.dns cn ::
                ((dns.filter (fun d => d != "" && d != cn)).map GeneralName.dns
                  ++ es)), false⟩,
             ⟨.subjectKeyIdentifier kst, false⟩,
             ⟨.authorityKeyIdentifier ca_cert.publicKey, false⟩],
            ca_key⟩, kst) := by
      simp only [generate_server_certificate, generate_private_key, hok,
        List.cons_append]
    refine ⟨_, _, hred, rfl, ?_⟩
    rw [List.count_cons_self]
    have hzero : (((dns.filter (fun d => d != "" && d != cn)).map GeneralName.dns
        ++ es).count (GeneralName.dns cn)) = 0 := by
      rw [List.count_eq_zero]
      intro hmem
      rcases List.mem_append.mp hmem with hmem | hmem
      · rcases List.mem_map.mp hmem with ⟨d, hd, hde⟩
        have : d = cn := by
          injection hde
        subst this
        have := List.of_mem_filter hd
        simp at this
      · rcases sanIpEntries_ok_shapes parse ips es hok _ hmem with ⟨a, ha⟩
        cases ha
    omega
  · intro hbad
    have herr := sanIpEntries_error_of_bad parse ips hbad
    simp only [generate_server_certificate, herr]

/-- Witness input for the SAN theorem: parses the one literal
`10.0.0.1`. -/
def goodParse : String → Option IpAddr :=
  fun s => if s = "10.0.0.1" then some (.v4 10 0 0 1) else none

def sampleCert : Cert :=
  ⟨[(COMMON_NAME, "Root CA")], [(COMMON_NAME, "Root CA")], 11, 0, 1000, 0, [], 0⟩

/-- Witness for `server_cert_san_spec` at concrete inputs: the common
name duplicated in `dns_sans` plus one IP, and a non-parsing IP
entry. -/
theorem server_cert_san_spec_witness :
    (∃ cert key,
      (generate_server_certificate goodParse "www.example.com" sampleCert 5
        ["www.example.com", "api.example.com"] ["10.0.0.1"]
        "" "" "US" "" "" 365 2048 100 1 0).1 = .ok (cert, key)
      ∧ getSAN cert = some (GeneralName.dns "www.example.com" ::
          ((["www.example.com", "api.example.com"].filter
              (fun d => d != "" && d != "www.example.com")).map GeneralName.dns
            ++ [GeneralName.ip (IpAddr.v4 10 0 0 1)]))
      ∧ (GeneralName.dns "www.example.com" ::
          ((["www.example.com", "api.example.com"].filter
              (fun d => d != "" && d != "www.example.com")).map GeneralName.dns
            ++ [GeneralName.ip (IpAddr.v4 10 0 0 1)])).count
              (GeneralName.dns "www.example.com") = 1)
    ∧ (generate_server_certificate goodParse "www.example.com" sampleCert 5
        [] ["bad"] "" "" "US" "" "" 365 2048 100 1 0).1
        = .error .invalidSANError :=
  ⟨(server_cert_san_spec goodParse "www.example.com" sampleCert 5
      ["www.example.com", "api.example.com"] ["10.0.0.1"]
      "" "" "US" "" "" 365 2048 100 1 0).1
      [GeneralName.ip (IpAddr.v4 10 0 0 1)] rfl,
   (server_cert_san_spec goodParse "www.example.com" sampleCert 5
      [] ["bad"] "" "" "US" "" "" 365 2048 100 1 0).2
      ⟨"bad", by simp, by decide, rfl⟩⟩

/-! C2 is refuted by the code: the revoke views perform no status
check, so revoking an already-revoked certificate succeeds again and
overwrites `revoked_at` and `revocation_reason`. -/

/-- A server certificate already revoked at time 100 for
`superseded`. -/
def revokedServer : ServerRec :=
  { sampleServer with
    status := "revoked"
    revoked_at := some 100
    revocation_reason := "superseded" }

def c2sys : Sys := ⟨[], [revokedServer], [], 0, 0⟩

/-- C2 counterexample: revoking the already-revoked certificate
(id 1, `revoked_at = 100`, reason `superseded`) again at time 200 for
`key_compromise` raises no error and overwrites both fields — the
claimed `InvalidStateTransition` failure does not happen. -/
theorem revoke_already_revoked_counterexample :
    revokedServer.status ≠ "active"
    ∧ revokedServer.revoked_at = some 100
    ∧ revokedServer.revocation_reason = "superseded"
    ∧ (server_cert_revoke c2sys 1 "key_compromise" true 200).1 = none
    ∧ (server_cert_revoke c2sys 1 "key_compromise" true 200).2.server_certs
        = [{ revokedServer with
             revoked_at := some 200
             revocation_reason := "key_compromise" }] := by
  refine ⟨by decide, rfl, rfl, ?_, ?_⟩ <;> decide

/-- C2 amended: when the revoke form validates (an enumerated
reason and the confirmation flag), revoking a server or client
certificate of any status — active, revoked or otherwise — succeeds
(no error) and sets `status = 'revoked'`, `revoked_at` to the current
time and the recorded reason to the submitted one, overwriting any
earlier revocation data. -/
theorem revoke_overwrites_unconditionally (sys : Sys) (pk : Nat)
    (s : ServerRec) (c : ClientRec) (reason : String) (confirm : Bool)
    (now : Nat) (hform : revokeFormValid reason confirm = true) :
    (findServer sys pk = some s →
      (server_cert_revoke sys pk reason confirm now).1 = none
      ∧ ∀ x ∈ (server_cert_revoke sys pk reason confirm now).2.server_certs,
          x.id = pk → x.status = "revoked" ∧ x.revoked_at = some now
            ∧ x.revocation_reason = reason)
    ∧ (findClient sys pk = some c →
      (client_cert_revoke sys pk reason confirm now).1 = none
      ∧ ∀ x ∈ (client_cert_revoke sys pk reason confirm now).2.client_certs,
          x.id = pk → x.status = "revoked" ∧ x.revoked_at = some now
            ∧ x.revocation_reason = reason) := by
  constructor
  · intro hfind
    constructor
    · simp only [server_cert_revoke, hfind, hform, if_true]
    · intro x hx hxid
      simp only [server_cert_revoke, hfind, hform, if_true] at hx
      rcases List.mem_map.mp hx with ⟨y, hy, rfl⟩
      by_cases hid : (y.id == pk) = true
      · simp only [hid, if_true]
        exact ⟨by trivial, by trivial, by trivial⟩
      · exfalso
        simp only [hid, if_false] at hxid
        exact hid (by simpa using hxid)
  · intro hfind
    constructor
    · simp only [client_cert_revoke, hfind, hform, if_true]
    · intro x hx hxid
      simp only [client_cert_revoke, hfind, hform, if_true] at hx
      rcases List.mem_map.mp hx with ⟨y, hy, rfl⟩
      by_cases hid : (y.id == pk) = true
      · simp only [hid, if_true]
        exact ⟨by trivial, by trivial, by trivial⟩
      · exfalso
        simp only [hid, if_false] at hxid
        exact hid (by simpa using hxid)

def c2sysBoth : Sys := ⟨[], [revokedServer], [sampleClient], 0, 0⟩

/-- Witness for `revoke_overwrites_unconditionally` at concrete
inputs. -/
theorem revoke_overwrites_unconditionally_witness :
    (server_cert_revoke c2sysBoth 1 "key_compromise" true 200).1 = none
    ∧ (client_cert_revoke c2sysBoth 2 "superseded" true 300).1 = none :=
  ⟨((revoke_overwrites_unconditionally c2sysBoth 1 revokedServer sampleClient
      "key_compromise" true 200 (by decide)).1 (by decide)).1,
   ((revoke_overwrites_unconditionally c2sysBoth 2 revokedServer sampleClient
      "superseded" true 300 (by decide)).2 (by decide)).1⟩

/-- C4: `ca_delete` fails with `DependencyExistsError` and leaves
the store untouched when the CA has at least one dependent (issued
server certificate, issued client certificate, or child CA); with zero
dependents it succeeds and the CA's record disappears. -/
theorem ca_delete_dependents (sys : Sys) (pk : Nat) (ca : CARec)
    (hfind : findCA sys pk = some ca) :
    (0 < (sys.server_certs.filter (fun c => c.issuing_ca == ca.id)).length
        + (sys.client_certs.filter (fun c => c.issuing_ca == ca.id)).length
        + (sys.cas.filter (fun c => c.parent_ca == some ca.id)).length →
      ca_delete sys pk = (some .dependencyExistsError, sys))
    ∧ ((sys.server_certs.filter (fun c => c.issuing_ca == ca.id)).length
        + (sys.client_certs.filter (fun c => c.issuing_ca == ca.id)).length
        + (sys.cas.filter (fun c => c.parent_ca == some ca.id)).length = 0 →
      ca_delete sys pk
        = (none, { sys with cas := sys.cas.filter (fun c => !(c.id == pk)) })
      ∧ ∀ c ∈ (ca_delete sys pk).2.cas, c.id ≠ pk) := by
  constructor
  · intro hdeps
    simp only [ca_delete, hfind]
    split
    · rfl
    · next hcond =>
        exfalso
        simp only [Bool.or_eq_true, decide_eq_true_eq, not_or] at hcond
        omega
  · intro hzero
    have hred : ca_delete sys pk
        = (none, { sys with cas := sys.cas.filter (fun c => !(c.id == pk)) }) := by
      simp only [ca_delete, hfind]
      split
      · next hcond =>
          exfalso
          simp only [Bool.or_eq_true, decide_eq_true_eq] at hcond
          omega
      · rfl
    refine ⟨hred, ?_⟩
    rw [hred]
    intro c hc
    have := List.of_mem_filter hc
    simpa using this

def caRecA : CARec :=
  { id := 7
    name := "root"
    common_name := "Root CA"
    organization := ""
    organizational_unit := ""
    country := "US"
    state := ""
    locality := ""
    certificate_pem := ""
    private_key_pem := ""
    valid_from := some 0
    valid_until := some 1000
    parent_ca := none
    is_root := true }

def sysWithDependent : Sys := ⟨[caRecA], [sampleServer], [], 0, 0⟩

def sysNoDependent : Sys := ⟨[caRecA], [], [], 0, 0⟩

/-- Witness for `ca_delete_dependents`: the deletion is blocked while a
server certificate references CA 7 and succeeds once nothing does. -/
theorem ca_delete_dependents_witness :
    ca_delete sysWithDependent 7 = (some .dependencyExistsError, sysWithDependent)
    ∧ ca_delete sysNoDependent 7
        = (none, { sysNoDependent with
            cas := sysNoDependent.cas.filter (fun c => !(c.id == 7)) }) :=
  ⟨(ca_delete_dependents sysWithDependent 7 caRecA rfl).1 (by decide),
   ((ca_delete_dependents sysNoDependent 7 caRecA rfl).2 (by decide)).1⟩

theorem server_cert_create_cases (parse : String → Option IpAddr) (sys : Sys)
    (sf : ServerForm) (now serial new_id : Nat) :
    (server_cert_create parse sys sf now serial new_id).1 = none
    ∨ ((server_cert_create parse sys sf now serial new_id).2.cas = sys.cas
      ∧ (server_cert_create parse sys sf now serial new_id).2.server_certs
          = sys.server_certs
      ∧ (server_cert_create parse sys sf now serial new_id).2.client_certs
          = sys.client_certs) := by
  simp only [server_cert_create]
  repeat' split
  all_goals first
    | (left; rfl)
    | (right; exact ⟨rfl, rfl, rfl⟩)

theorem client_cert_create_cases (sys : Sys) (cf : ClientForm)
    (now serial new_id : Nat) :
    (client_cert_create sys cf now serial new_id).1 = none
    ∨ ((client_cert_create sys cf now serial new_id).2.cas = sys.cas
      ∧ (client_cert_create sys cf now serial new_id).2.server_certs
          = sys.server_certs
      ∧ (client_cert_create sys cf now serial new_id).2.client_certs
          = sys.client_certs) := by
  simp only [client_cert_create]
  repeat' split
  all_goals first
    | (left; rfl)
    | (right; exact ⟨rfl, rfl, rfl⟩)

theorem findCA_nonempty (sys : Sys) (pk : Nat) (ca : CARec)
    (hfind : findCA sys pk = some ca) : sys.cas.isEmpty = false := by
  rcases h : sys.cas with _ | ⟨a, l⟩
  · rw [findCA, h] at hfind
    simp at hfind
  · rfl

/-- C3: issuance is atomic: whenever `server_cert_create` or
`client_cert_create` reports an error (validation, CA-material load,
SAN parsing), none of the three tables changes — persistence is the
single final step; and when the issuing CA's stored certificate or
private key fails to parse, the reported error is `CAChainError`. -/
theorem issuance_atomic (parse : String → Option IpAddr) (sys : Sys)
    (sf : ServerForm) (cf : ClientForm) (now serial new_id : Nat) :
    (∀ e, (server_cert_create parse sys sf now serial new_id).1 = some e →
      (server_cert_create parse sys sf now serial new_id).2.cas = sys.cas
      ∧ (server_cert_create parse sys sf now serial new_id).2.server_certs
          = sys.server_certs
      ∧ (server_cert_create parse sys sf now serial new_id).2.client_certs
          = sys.client_certs)
    ∧ (∀ ca, findCA sys sf.issuing_ca = some ca →
        serverFormValid sys.cas sf = true →
        (load_certificate_from_pem ca.certificate_pem = none
          ∨ load_private_key_from_pem ca.private_key_pem = none) →
        (server_cert_create parse sys sf now serial new_id).1
          = some .caChainError)
    ∧ (∀ e, (client_cert_create sys cf now serial new_id).1 = some e →
      (client_cert_create sys cf now serial new_id).2.cas = sys.cas
      ∧ (client_cert_create sys cf now serial new_id).2.server_certs
          = sys.server_certs
      ∧ (client_cert_create sys cf now serial new_id).2.client_certs
          = sys.client_certs)
    ∧ (∀ ca, findCA sys cf.issuing_ca = some ca →
        clientFormValid sys.cas cf = true →
        (load_certificate_from_pem ca.certificate_pem = none
          ∨ load_private_key_from_pem ca.private_key_pem = none) →
        (client_cert_create sys cf now serial new_id).1
          = some .caChainError) := by
  refine ⟨?_, ?_, ?_, ?_⟩
  · intro e he
    rcases server_cert_create_cases parse sys sf now serial new_id with h | h
    · rw [he] at h
      cases h
    · exact h
  · intro ca hfind hvalid hload
    have hne := findCA_nonempty sys sf.issuing_ca ca hfind
    cases hc : load_certificate_from_pem ca.certificate_pem with
    | none =>
      simp only [server_cert_create, hne, hvalid, hfind, hc, Bool.not_true,
        Bool.false_eq_true, if_false]
    | some cc =>
      cases hk : load_private_key_from_pem ca.private_key_pem with
      | none =>
        simp only [server_cert_create, hne, hvalid, hfind, hc, hk, Bool.not_true,
          Bool.false_eq_true, if_false]
      | some kk =>
        exfalso
        rcases hload with h | h
        · rw [hc] at h; cases h
        · rw [hk] at h; cases h
  · intro e he
    rcases client_cert_create_cases sys cf now serial new_id with h | h
    · rw [he] at h
      cases h
    · exact h
  · intro ca hfind hvalid hload
    have hne := findCA_nonempty sys cf.issuing_ca ca hfind
    cases hc : load_certificate_from_pem ca.certificate_pem with
    | none =>
      simp only [client_cert_create, hne, hvalid, hfind, hc, Bool.not_true,
        Bool.false_eq_true, if_false]
    | some cc =>
      cases hk : load_private_key_from_pem ca.private_key_pem with
      | none =>
        simp only [client_cert_create, hne, hvalid, hfind, hc, hk, Bool.not_true,
          Bool.false_eq_true, if_false]
      | some kk =>
        exfalso
        rcases hload with h | h
        · rw [hc] at h; cases h
        · rw [hk] at h; cases h

def badCA : CARec :=
  { caRecA with
    certificate_pem := "garbage"
    private_key_pem := "garbage" }

def sysBadCA : Sys := ⟨[badCA], [], [], 0, 0⟩

def okServerForm : ServerForm :=
  { name := "web"
    common_name := "www.example.com"
    san_dns_names := ""
    san_ip_addresses := ""
    organization := ""
    organizational_unit := ""
    country := "US"
    state := ""
    locality := ""
    issuing_ca := 7
    validity_days := 365
    key_size := 2048 }

def okClientForm : ClientForm :=
  { name := "alice"
    common_name := "alice@example.com"
    email := "alice@example.com"
    organization := ""
    organizational_unit := ""
    country := "US"
    state := ""
    locality := ""
    issuing_ca := 7
    validity_days := 365
    key_size := 2048
    generate_p12 := false }

/-- Witness for `issuance_atomic`: against a CA whose stored PEMs are
unparsable, both issuances fail with `CAChainError` and write
nothing. -/
theorem issuance_atomic_witness :
    (server_cert_create goodParse sysBadCA okServerForm 1 2 3).1
        = some .caChainError
    ∧ (server_cert_create goodParse sysBadCA okServerForm 1 2 3).2.server_certs
        = sysBadCA.server_certs
    ∧ (client_cert_create sysBadCA okClientForm 1 2 3).1 = some .caChainError
    ∧ (client_cert_create sysBadCA okClientForm 1 2 3).2.client_certs
        = sysBadCA.client_certs := by
  have h := issuance_atomic goodParse sysBadCA okServerForm okClientForm 1 2 3
  have hserr := h.2.1 badCA (by decide) (by decide) (Or.inl (by decide))
  have hcerr := h.2.2.2 badCA (by decide) (by decide) (Or.inl (by decide))
  exact ⟨hserr, (h.1 .caChainError hserr).2.1, hcerr,
    (h.2.2.1 .caChainError hcerr).2.2⟩

/-- C6: a `validity_days` outside the permitted range — `[1, 7300]`
for CAs, `[1, 825]` for server certificates, `[1, 1095]` for client
certificates — makes form validation fail: the request is rejected with
`ValidationError` and the state (all three tables and the key-generation
counter) is returned untouched, so no key material is generated and no
record is created. -/
theorem validity_days_range_rejected (parse : String → Option IpAddr)
    (sys : Sys) (caf : CAForm) (sf : ServerForm) (cf : ClientForm)
    (now serial new_id : Nat) (hne : sys.cas.isEmpty = false) :
    ((caf.validity_days < 1 ∨ 7300 < caf.validity_days) →
      ca_create sys caf now serial new_id = (some .validationError, sys))
    ∧ ((sf.validity_days < 1 ∨ 825 < sf.validity_days) →
      server_cert_create parse sys sf now serial new_id
        = (some .validationError, sys))
    ∧ ((cf.validity_days < 1 ∨ 1095 < cf.validity_days) →
      client_cert_create sys cf now serial new_id
        = (some .validationError, sys)) := by
  refine ⟨?_, ?_, ?_⟩
  · intro h
    have hv : caFormValid sys.cas caf = false := by
      rcases h with h | h
      · unfold caFormValid
        rw [decide_eq_false (by omega : ¬(1 ≤ caf.validity_days))]
        simp
      · unfold caFormValid
        rw [decide_eq_false (by omega : ¬(caf.validity_days ≤ 7300))]
        simp
    simp only [ca_create, hv, Bool.not_false, if_true]
  · intro h
    have hv : serverFormValid sys.cas sf = false := by
      rcases h with h | h
      · unfold serverFormValid
        rw [decide_eq_false (by omega : ¬(1 ≤ sf.validity_days))]
        simp
      · unfold serverFormValid
        rw [decide_eq_false (by omega : ¬(sf.validity_days ≤ 825))]
        simp
    simp only [server_cert_create, hne, hv, Bool.not_false, if_true,
      Bool.false_eq_true, if_false]
  · intro h
    have hv : clientFormValid sys.cas cf = false := by
      rcases h with h | h
      · unfold clientFormValid
        rw [decide_eq_false (by omega : ¬(1 ≤ cf.validity_days))]
        simp
      · unfold clientFormValid
        rw [decide_eq_false (by omega : ¬(cf.validity_days ≤ 1095))]
        simp
    simp only [client_cert_create, hne, hv, Bool.not_false, if_true,
      Bool.false_eq_true, if_false]

def badCAForm : CAForm :=
  { name := "x"
    common_name := "X Root"
    organization := ""
    organizational_unit := ""
    country := "US"
    state := ""
    locality := ""
    parent_ca := none
    validity_days := 0
    key_size := 4096 }

def badServerForm : ServerForm :=
  { okServerForm with validity_days := 9000 }

def badClientForm : ClientForm :=
  { okClientForm with validity_days := 0 }

/-- Witness for `validity_days_range_rejected` at concrete out-of-range
requests. -/
theorem validity_days_range_rejected_witness :
    ca_create sysNoDependent badCAForm 1 2 3
        = (some .validationError, sysNoDependent)
    ∧ server_cert_create goodParse sysNoDependent badServerForm 1 2 3
        = (some .validationError, sysNoDependent)
    ∧ client_cert_create sysNoDependent badClientForm 1 2 3
        = (some .validationError, sysNoDependent) := by
  have h := validity_days_range_rejected goodParse sysNoDependent badCAForm
    badServerForm badClientForm 1 2 3 (by decide)
  exact ⟨h.1 (Or.inl (by decide)), h.2.1 (Or.inr (by decide)),
    h.2.2 (Or.inl (by decide))⟩

end Certosaurus
